import Mathlib

/-!
Verification development for the Mercadona hybrid catalog system
(src/mercadona.py).  The Python source is shallowly embedded: every
definition below is translated from the corresponding Python function,
with external effects (HTTP product fetches, related-product fetches,
the on-disk cache) passed in as explicit function parameters, and
Python exceptions modelled with Except.  Arithmetic is modelled
exactly: Python float multipliers (1.5, 0.9, 1.2, 1.3) are represented
with exact integer scaling (category limits are stored multiplied by
10) or with natural-number division where the source truncates with
int().
-/

/-- Model of the Python values that can appear as a product id:
strings, floats (modelled as exact rationals) and ints. -/
inductive PyVal where
  | pstr (s : String)
  | pfloat (q : ℚ)
  | pint (n : ℤ)
deriving DecidableEq, Repr

/-- Model of the Python default string rendering of a float value
(str(7.0) is the string of the integer followed by a trailing .0; the
rendering of non-integral floats is abstracted as num/den). -/
def floatRepr (q : ℚ) : String :=
  if q.den = 1 then toString q.num ++ ".0" else toString q.num ++ "/" ++ toString q.den

/-- Python str() applied to a PyVal. -/
def pyValStr : PyVal → String
  | .pstr s => s
  | .pfloat q => floatRepr q
  | .pint n => toString n

/-- Embedding of MercadonaHybridCatalogSystem._clean_product_id: a float
carrying an integral value is collapsed to the decimal string of the
integer; every other value is rendered with str(). -/
def clean_product_id : PyVal → String
  | .pfloat q => if q.den = 1 then toString q.num else pyValStr (.pfloat q)
  | .pstr s => pyValStr (.pstr s)
  | .pint n => pyValStr (.pint n)

/-- One entry of a raw record's category list (id and name are taken as
present; the claims never exercise a malformed category entry). -/
structure CategoryEntry where
  catId : PyVal
  catName : String
deriving DecidableEq, Repr

/-- The price_instructions sub-dictionary of a raw API record; every key
may be absent.  Price amounts are kept as the decimal strings the API
delivers. -/
structure PriceInfo where
  bulk_price : Option String
  unit_price : Option String
  size_format : Option String
  tax_percentage : Option String
deriving DecidableEq, Repr

/-- An empty price_instructions dictionary (the default taken by
dict.get). -/
def emptyPriceInfo : PriceInfo := ⟨none, none, none, none⟩

/-- A raw product record as returned by the remote API.  Each field is
optional: none models the key being absent from the JSON dictionary. -/
structure ProductRec where
  recId : Option PyVal
  display_name : Option String
  slug : Option String
  categories : Option (List CategoryEntry)
  price_instructions : Option PriceInfo
  packaging : Option String
  published : Option Bool
  share_url : Option String
deriving DecidableEq, Repr

/-- The record with every key absent: the empty dictionary, which is
falsy in Python. -/
def ProductRec.emptyRec : ProductRec := ⟨none, none, none, none, none, none, none, none⟩

/-- Digits of a decimal string folded into a natural number. -/
def digitsVal (s : String) : ℕ :=
  s.foldl (fun n c => n * 10 + (c.toNat - 48)) 0

/-- Model of Python float(s) on a decimal string: optional sign, an
integer part and an optional fractional part.  none models the
ValueError Python raises on an unparsable string. -/
def pyFloat (s : String) : Option ℚ :=
  let (neg, body) := if s.startsWith "-" then (true, s.drop 1) else (false, s)
  let mk : ℚ → Option ℚ := fun q => some (if neg then -q else q)
  match body.split (· = '.') with
  | [w] =>
      if w.length > 0 ∧ w.toList.all Char.isDigit then mk (digitsVal w) else none
  | [w, f] =>
      if (w.length > 0 ∨ f.length > 0) ∧ w.toList.all Char.isDigit ∧ f.toList.all Char.isDigit then
        mk ((digitsVal w : ℚ) + (digitsVal f : ℚ) / ((10 : ℚ) ^ f.length))
      else none
  | _ => none

/-- Embedding of float(price_info.get(key, 0)): an absent key yields
float(0) = 0 without parsing; a present value is parsed, and a parse
failure is an exception. -/
def parsePrice : Option String → Option ℚ
  | none => some 0
  | some s => pyFloat s

/-- A normalized catalog row, with the field names of the Python dict
built by extract_product_data. -/
structure Row where
  id : String
  nombre : String
  slug : String
  categoria_id : Option String
  categoria : String
  precio_total : ℚ
  precio_por_unidad : ℚ
  unidad_medida : String
  iva : String
  empaque : String
  disponible : Bool
  url : String
deriving DecidableEq, Repr

/-- Embedding of MercadonaHybridCatalogSystem.extract_product_data.
A falsy input (None, or the empty dictionary) yields None.  Access to a
required key (categories, id, display_name, slug, packaging, published)
raises KeyError when the key is absent, modelled as Except.error.  An
empty category list yields a row with a null category id and the
sentinel name.  Price fields default to 0 when absent; an unparsable
price string raises (float), also modelled as Except.error. -/
def extract_product_data (p : Option ProductRec) : Except Unit (Option Row) :=
  match p with
  | none => .ok none
  | some product =>
    if product = ProductRec.emptyRec then .ok none else
    match product.categories with
    | none => .error ()
    | some cats =>
      match product.recId with
      | none => .error ()
      | some pid =>
        match product.display_name with
        | none => .error ()
        | some nombre =>
          match product.slug with
          | none => .error ()
          | some slugv =>
            match product.packaging with
            | none => .error ()
            | some empaque =>
              match product.published with
              | none => .error ()
              | some disponible =>
                let priceInfo := product.price_instructions.getD emptyPriceInfo
                match parsePrice priceInfo.bulk_price with
                | none => .error ()
                | some precioTotal =>
                  match parsePrice priceInfo.unit_price with
                  | none => .error ()
                  | some precioUnidad =>
                    .ok (some {
                      id := clean_product_id pid
                      nombre := nombre
                      slug := slugv
                      categoria_id := (cats.head?).map (fun c => clean_product_id c.catId)
                      categoria := ((cats.head?).map (·.catName)).getD "Sin categoría"
                      precio_total := precioTotal
                      precio_por_unidad := precioUnidad
                      unidad_medida := priceInfo.size_format.getD ""
                      iva := priceInfo.tax_percentage.getD ""
                      empaque := empaque
                      disponible := disponible
                      url := match product.share_url with
                             | none => ""
                             | some s => if s = "" then "" else s.trim })

/-- C10: product-id normalization is idempotent and is the identity on
every string input (a string such as 7.0 is not collapsed); only a
float whose value is integral is collapsed to the decimal string of the
integer, and every other value is rendered with its default string
representation. -/
theorem c10_clean_product_id_normalization :
    (∀ s, clean_product_id (.pstr s) = s) ∧
    (∀ v, clean_product_id (.pstr (clean_product_id v)) = clean_product_id v) ∧
    (∀ q : ℚ, q.den = 1 → clean_product_id (.pfloat q) = toString q.num) ∧
    (∀ q : ℚ, q.den ≠ 1 → clean_product_id (.pfloat q) = pyValStr (.pfloat q)) ∧
    (∀ n : ℤ, clean_product_id (.pint n) = pyValStr (.pint n)) := by
  refine ⟨fun s => rfl, fun v => rfl, ?_, ?_, fun n => rfl⟩
  · intro q h
    simp [clean_product_id, h]
  · intro q h
    simp [clean_product_id, h]

/-- C10 witness: the string 7.0 is returned unchanged, while the
integral float 7 is collapsed to the decimal string of its integer
part. -/
theorem c10_witness :
    clean_product_id (.pstr "7.0") = "7.0" ∧
    clean_product_id (.pfloat 7) = toString (7 : ℚ).num :=
  ⟨c10_clean_product_id_normalization.1 "7.0",
   c10_clean_product_id_normalization.2.2.1 7 (by norm_num)⟩

/-- A record whose category list is present but empty, with every
required field populated. -/
def recNoCats : ProductRec :=
  { recId := some (.pstr "42"), display_name := some "Agua", slug := some "agua",
    categories := some [], price_instructions := none, packaging := some "Botella",
    published := some true, share_url := none }

/-- The fully populated row that extraction produces for recNoCats. -/
def rowNoCats : Row :=
  { id := "42", nombre := "Agua", slug := "agua", categoria_id := none,
    categoria := "Sin categoría", precio_total := 0, precio_por_unidad := 0,
    unidad_medida := "", iva := "", empaque := "Botella", disponible := true, url := "" }

/-- C3 counterexample: on a record whose category list is empty (all
required fields present), extract_product_data does not return None: it
returns a fully populated row with a null category id and the sentinel
category name, refuting the claim that extraction returns None when the
record's category list is empty. -/
theorem c3_counterexample :
    extract_product_data (some recNoCats) = .ok (some rowNoCats) := by rfl

/-- C3 amended: extraction returns None exactly for a falsy input
record; a record with an empty category list yields a fully populated
row with null category id and the sentinel category name; and a missing
required field (categories, id, display name, slug, packaging,
published flag) makes extraction raise KeyError (modelled as an error)
rather than return None — so no partial row is ever produced, but the
missing-field outcome is an exception, not a null result. -/
theorem c3_extract_all_or_nothing_amended :
    (extract_product_data none = .ok none) ∧
    (∀ p : ProductRec, p ≠ ProductRec.emptyRec →
       (p.categories = none ∨ p.recId = none ∨ p.display_name = none ∨
        p.slug = none ∨ p.packaging = none ∨ p.published = none) →
       extract_product_data (some p) = .error ()) ∧
    (∀ p : ProductRec, p ≠ ProductRec.emptyRec →
       extract_product_data (some p) ≠ .ok none) ∧
    (∀ (p : ProductRec) (r : Row), p.categories = some [] →
       extract_product_data (some p) = .ok (some r) →
       r.categoria_id = none ∧ r.categoria = "Sin categoría") := by
  refine ⟨rfl, ?_, ?_, ?_⟩
  · intro p hne h
    simp only [extract_product_data]
    rw [if_neg hne]
    repeat' split
    all_goals simp_all
  · intro p hne hok
    simp only [extract_product_data] at hok
    rw [if_neg hne] at hok
    repeat' split at hok
    all_goals simp_all
  · intro p r hcats hok
    by_cases hne : p = ProductRec.emptyRec
    · rw [hne] at hok
      simp [extract_product_data] at hok
    · simp only [extract_product_data] at hok
      rw [if_neg hne] at hok
      repeat' split at hok
      all_goals try (cases hok)
      all_goals simp_all

/-- The record of recNoCats with its display name removed. -/
def recNoName : ProductRec := { recNoCats with display_name := none }

/-- C3 witness: extraction raises (does not return None) on a record
missing the required display-name field. -/
theorem c3_witness : extract_product_data (some recNoName) = .error () :=
  c3_extract_all_or_nothing_amended.2.1 recNoName (by decide)
    (Or.inr (Or.inr (Or.inl rfl)))

/-- The ids column of a list of catalog rows. -/
def idsOf (l : List Row) : List String := l.map Row.id

/-- Embedding of MercadonaHybridCatalogSystem._update_catalog_with_changes
restricted to the merged dataset it builds: rows of the existing catalog
whose id appears among the updated rows are removed, then the updated
rows are appended, then the new rows are appended.  The source guards
each step behind emptiness checks of the corresponding dataframe; those
guards do not change the resulting row list, so the merge is written
unconditionally. -/
def update_catalog_with_changes (existing updated_products new_products : List Row) : List Row :=
  (existing.filter fun r => decide (r.id ∉ idsOf updated_products)) ++
    updated_products ++ new_products

/-- A minimal catalog row used for concrete inputs. -/
def mkRow (i : String) (c : Option String) : Row :=
  { id := i, nombre := i, slug := i, categoria_id := c, categoria := "C",
    precio_total := 0, precio_por_unidad := 0, unidad_medida := "", iva := "",
    empaque := "", disponible := true, url := "" }

/-- C4 counterexample: when a new row carries an id already present in
the existing catalog (the source only removes ids of updated rows), the
merged catalog contains two rows with the same id, refuting the claim
that the merge output is id-unique for all inputs. -/
theorem c4_counterexample :
    ¬ (idsOf (update_catalog_with_changes [mkRow "1" none] [] [mkRow "1" (some "B")])).Nodup := by
  decide

/-- C4 amended: under the caller preconditions the spec itself states
(the existing catalog is id-unique, updated and new rows each carry
distinct ids, the new ids are absent from the existing catalog, and the
updated and new id sets are disjoint), the merged catalog contains no
duplicate ids and every id of updated_products or new_products occurs
exactly once. -/
theorem c4_merge_id_unique_amended :
    ∀ existing updated_products new_products : List Row,
      (idsOf existing).Nodup → (idsOf updated_products).Nodup →
      (idsOf new_products).Nodup →
      (∀ i ∈ idsOf new_products, i ∉ idsOf existing) →
      (∀ i ∈ idsOf updated_products, i ∉ idsOf new_products) →
      (idsOf (update_catalog_with_changes existing updated_products new_products)).Nodup ∧
      (∀ i, i ∈ idsOf updated_products ∨ i ∈ idsOf new_products →
        (idsOf (update_catalog_with_changes existing updated_products new_products)).count i = 1) := by
  intro existing upd nw hex hupd hnw hnwex hdisj
  have hkey : idsOf (update_catalog_with_changes existing upd nw) =
      ((existing.filter fun r => decide (r.id ∉ idsOf upd)).map Row.id ++ idsOf upd) ++ idsOf nw := by
    simp [idsOf, update_catalog_with_changes]
  have hfmem : ∀ a, a ∈ (existing.filter fun r => decide (r.id ∉ idsOf upd)).map Row.id →
      a ∈ idsOf existing ∧ a ∉ idsOf upd := by
    intro a ha
    rcases List.mem_map.1 ha with ⟨r, hr, hra⟩
    rcases List.mem_filter.1 hr with ⟨hre, hrp⟩
    refine ⟨hra ▸ List.mem_map_of_mem Row.id hre, ?_⟩
    simpa [hra] using of_decide_eq_true hrp
  have hfnd : ((existing.filter fun r => decide (r.id ∉ idsOf upd)).map Row.id).Nodup := by
    exact List.Nodup.sublist (List.Sublist.map Row.id (List.filter_sublist existing)) hex
  have hnd1 : ((existing.filter fun r => decide (r.id ∉ idsOf upd)).map Row.id ++ idsOf upd).Nodup := by
    refine List.Nodup.append hfnd hupd ?_
    intro a ha hb
    exact (hfmem a ha).2 hb
  have hnd : (((existing.filter fun r => decide (r.id ∉ idsOf upd)).map Row.id ++ idsOf upd) ++ idsOf nw).Nodup := by
    refine List.Nodup.append hnd1 hnw ?_
    intro a ha hb
    rcases List.mem_append.1 ha with ha1 | ha2
    · exact hnwex a hb (hfmem a ha1).1
    · exact hdisj a ha2 hb
  constructor
  · rw [hkey]; exact hnd
  · intro i hi
    rw [hkey]
    have : i ∈ ((existing.filter fun r => decide (r.id ∉ idsOf upd)).map Row.id ++ idsOf upd) ++ idsOf nw := by
      rcases hi with hi | hi
      · exact List.mem_append.2 (Or.inl (List.mem_append.2 (Or.inr hi)))
      · exact List.mem_append.2 (Or.inr hi)
    exact List.count_eq_one_of_mem hnd this

/-- C4 witness: a merge satisfying the caller preconditions, with one
updated row replacing an existing row and one genuinely new row. -/
theorem c4_witness :
    (idsOf (update_catalog_with_changes [mkRow "1" none, mkRow "2" none]
        [mkRow "1" (some "A")] [mkRow "3" none])).Nodup ∧
    (∀ i, i ∈ idsOf [mkRow "1" (some "A")] ∨ i ∈ idsOf [mkRow "3" none] →
      (idsOf (update_catalog_with_changes [mkRow "1" none, mkRow "2" none]
          [mkRow "1" (some "A")] [mkRow "3" none])).count i = 1) :=
  c4_merge_id_unique_amended [mkRow "1" none, mkRow "2" none] [mkRow "1" (some "A")]
    [mkRow "3" none] (by decide) (by decide) (by decide) (by decide) (by decide)

/-- Embedding of MercadonaHybridCatalogSystem._is_product_updated.  The
cache (one stored raw record per product id, none when the id has no
cache entry) is passed as a function.  The comparison applies str() to
the bulk-price values with default "0"; bulk prices are modelled as the
decimal strings the API delivers, on which str() is the identity. -/
def is_product_updated (cache : String → Option ProductRec) (product_id : String)
    (api_data : ProductRec) : Bool :=
  match cache product_id with
  | none => true
  | some cached =>
    let priceCached := cached.price_instructions.getD emptyPriceInfo
    let priceApi := api_data.price_instructions.getD emptyPriceInfo
    if priceCached.bulk_price.getD "0" ≠ priceApi.bulk_price.getD "0" then true
    else if cached.published.getD true ≠ api_data.published.getD true then true
    else if cached.display_name.getD "" ≠ api_data.display_name.getD "" then true
    else false

/-- C6: the change check returns true when no cache entry exists; with a
cache entry whose bulk price, published flag and display name are all
present, it returns false exactly when the three fields coincide with
the fresh record's (so any one differing yields true); and the result
depends only on those three (defaulted) projections of the fresh
record, so changes to any other field never affect it. -/
theorem c6_change_detector :
    (∀ cache pid fresh, cache pid = none → is_product_updated cache pid fresh = true) ∧
    (∀ (cache : String → Option ProductRec) pid cached fresh pc pf b bf pub pubf n nf,
       cache pid = some cached →
       cached.price_instructions = some pc → fresh.price_instructions = some pf →
       pc.bulk_price = some b → pf.bulk_price = some bf →
       cached.published = some pub → fresh.published = some pubf →
       cached.display_name = some n → fresh.display_name = some nf →
       (is_product_updated cache pid fresh = false ↔ (b = bf ∧ pub = pubf ∧ n = nf))) ∧
    (∀ (cache : String → Option ProductRec) pid f1 f2,
       (f1.price_instructions.getD emptyPriceInfo).bulk_price.getD "0" =
         (f2.price_instructions.getD emptyPriceInfo).bulk_price.getD "0" →
       f1.published.getD true = f2.published.getD true →
       f1.display_name.getD "" = f2.display_name.getD "" →
       is_product_updated cache pid f1 = is_product_updated cache pid f2) := by
  refine ⟨?_, ?_, ?_⟩
  · intro cache pid fresh h
    simp [is_product_updated, h]
  · intro cache pid cached fresh pc pf b bf pub pubf n nf hc hpc hpf hb hbf hpub hpubf hn hnf
    simp only [is_product_updated, hc, hpc, hpf, hb, hbf, hpub, hpubf, hn, hnf, Option.getD_some]
    by_cases h1 : b = bf <;> by_cases h2 : pub = pubf <;> by_cases h3 : n = nf <;> simp_all
  · intro cache pid f1 f2 h1 h2 h3
    cases hc : cache pid <;> simp [is_product_updated, hc, h1, h2, h3]

/-- A raw record with bulk price, published flag and display name all
present, used as both the cached and the freshly fetched record. -/
def recFreshW : ProductRec :=
  { recId := some (.pstr "7"), display_name := some "Leche", slug := some "leche",
    categories := some [], price_instructions := some ⟨some "1.25", none, none, none⟩,
    packaging := some "B", published := some true, share_url := none }

/-- A cache holding recFreshW under id 7 and nothing else. -/
def cacheW : String → Option ProductRec := fun i => if i = "7" then some recFreshW else none

/-- C6 witness: a missing cache entry reports a change, and an identical
cached record reports no change. -/
theorem c6_witness :
    is_product_updated (fun _ => none) "9" recFreshW = true ∧
    is_product_updated cacheW "7" recFreshW = false :=
  ⟨c6_change_detector.1 (fun _ => none) "9" recFreshW rfl,
   (c6_change_detector.2.1 cacheW "7" recFreshW recFreshW
      ⟨some "1.25", none, none, none⟩ ⟨some "1.25", none, none, none⟩
      "1.25" "1.25" true true "Leche" "Leche"
      rfl rfl rfl rfl rfl rfl rfl rfl rfl).mpr ⟨rfl, rfl, rfl⟩⟩

/-- Embedding of the shard-selection comprehension in
update_catalog_intelligent: walking the known-product list with a
running enumeration index i, an element is kept when its index is
congruent to the shard index j modulo 4. -/
def shardIdx (i j : ℕ) : List String → List String
  | [] => []
  | a :: t => if i % 4 = j then a :: shardIdx (i + 1) j t else shardIdx (i + 1) j t

/-- The shard of the known-product list due for verification at shard
index j: every id at position congruent to j modulo 4. -/
def rotation_shard (l : List String) (j : ℕ) : List String := shardIdx 0 j l

/-- Embedding of the rotation advance: (rotation_index + 1) mod 4. -/
def advance_rotation (i : ℕ) : ℕ := (i + 1) % 4

theorem shardIdx_subset : ∀ (l : List String) (i j x), x ∈ shardIdx i j l → x ∈ l := by
  intro l
  induction l with
  | nil => intro i j x h; simp [shardIdx] at h
  | cons a t ih =>
    intro i j x h
    simp only [shardIdx] at h
    split_ifs at h with e
    · rcases List.mem_cons.1 h with h | h
      · exact h ▸ List.mem_cons_self a t
      · exact List.mem_cons_of_mem a (ih _ _ _ h)
    · exact List.mem_cons_of_mem a (ih _ _ _ h)

theorem shardIdx_disjoint : ∀ (l : List String), l.Nodup →
    ∀ i j1 j2, j1 ≠ j2 → ∀ x, x ∈ shardIdx i j1 l → x ∈ shardIdx i j2 l → False := by
  intro l
  induction l with
  | nil => intro _ i j1 j2 _ x h; simp [shardIdx] at h
  | cons a t ih =>
    intro hnd i j1 j2 hne x h1 h2
    rcases List.nodup_cons.1 hnd with ⟨hat, hndt⟩
    simp only [shardIdx] at h1 h2
    split_ifs at h1 h2 with e1 e2
    · exact hne (e1 ▸ e2 ▸ rfl)
    · rcases List.mem_cons.1 h1 with h1 | h1
      · exact hat (h1 ▸ shardIdx_subset t _ _ _ h2)
      · exact ih hndt _ _ _ hne x h1 h2
    · rcases List.mem_cons.1 h2 with h2 | h2
      · exact hat (h2 ▸ shardIdx_subset t _ _ _ h1)
      · exact ih hndt _ _ _ hne x h1 h2
    · exact ih hndt _ _ _ hne x h1 h2

theorem shardIdx_mem_cons (a : String) (t : List String) (i j : ℕ) (x : String)
    (h : x ∈ shardIdx (i + 1) j t) : x ∈ shardIdx i j (a :: t) := by
  simp only [shardIdx]
  split_ifs with e
  · exact List.mem_cons_of_mem a h
  · exact h

theorem shardIdx_cover : ∀ (l : List String) (i x), x ∈ l →
    x ∈ shardIdx i 0 l ∨ x ∈ shardIdx i 1 l ∨ x ∈ shardIdx i 2 l ∨ x ∈ shardIdx i 3 l := by
  intro l
  induction l with
  | nil => intro i x h; simp at h
  | cons a t ih =>
    intro i x h
    rcases List.mem_cons.1 h with h | h
    · have : i % 4 = 0 ∨ i % 4 = 1 ∨ i % 4 = 2 ∨ i % 4 = 3 := by omega
      rcases this with e | e | e | e
      · exact Or.inl (by simp [shardIdx, e, h])
      · exact Or.inr (Or.inl (by simp [shardIdx, e, h]))
      · exact Or.inr (Or.inr (Or.inl (by simp [shardIdx, e, h])))
      · exact Or.inr (Or.inr (Or.inr (by simp [shardIdx, e, h])))
    · rcases ih (i + 1) x h with h' | h' | h' | h'
      · exact Or.inl (shardIdx_mem_cons a t i 0 x h')
      · exact Or.inr (Or.inl (shardIdx_mem_cons a t i 1 x h'))
      · exact Or.inr (Or.inr (Or.inl (shardIdx_mem_cons a t i 2 x h')))
      · exact Or.inr (Or.inr (Or.inr (shardIdx_mem_cons a t i 3 x h')))

/-- C7: under the stable enumeration of a duplicate-free known-product
collection, the four shards (indices congruent to 0, 1, 2, 3 mod 4) are
pairwise disjoint, their union is the whole collection, and advancing
the shard index four times returns it to its starting value. -/
theorem c7_rotation_partition :
    ∀ l : List String, l.Nodup →
      (∀ j1 j2, j1 ≠ j2 → ∀ x, x ∈ rotation_shard l j1 → x ∈ rotation_shard l j2 → False) ∧
      (∀ x, x ∈ l ↔
        (x ∈ rotation_shard l 0 ∨ x ∈ rotation_shard l 1 ∨
         x ∈ rotation_shard l 2 ∨ x ∈ rotation_shard l 3)) ∧
      (∀ i, i < 4 →
        advance_rotation (advance_rotation (advance_rotation (advance_rotation i))) = i) := by
  intro l hnd
  refine ⟨?_, ?_, ?_⟩
  · intro j1 j2 hne x h1 h2
    exact shardIdx_disjoint l hnd 0 j1 j2 hne x h1 h2
  · intro x
    constructor
    · intro h
      exact shardIdx_cover l 0 x h
    · intro h
      rcases h with h | h | h | h <;> exact shardIdx_subset l 0 _ x h
  · intro i h
    simp only [advance_rotation]
    omega

/-- C7 witness: the partition and rotation-period facts at a concrete
five-element known-product list. -/
theorem c7_witness :
    ("a" ∈ rotation_shard ["a", "b", "c", "d", "e"] 0 ∨
     "a" ∈ rotation_shard ["a", "b", "c", "d", "e"] 1 ∨
     "a" ∈ rotation_shard ["a", "b", "c", "d", "e"] 2 ∨
     "a" ∈ rotation_shard ["a", "b", "c", "d", "e"] 3) ∧
    advance_rotation (advance_rotation (advance_rotation (advance_rotation 1))) = 1 :=
  ⟨((c7_rotation_partition ["a", "b", "c", "d", "e"] (by decide)).2.1 "a").1 (by decide),
   (c7_rotation_partition ["a", "b", "c", "d", "e"] (by decide)).2.2 1 (by decide)⟩

/-- Number of rows of the catalog whose category id is c (pandas
value_counts over the categoria_id column; rows with a null category
are dropped by value_counts and get no entry). -/
def catSize (catalog : List Row) (c : String) : ℕ :=
  (catalog.filter fun r => decide (r.categoria_id = some c)).length

/-- The classification tier of an observed size s against the catalog
total: 0 (large, share above 8 percent), 1 (medium, share above 4
percent), 2 (small).  The comparisons are the exact forms of
size > total times 0.08 and 0.04. -/
def tierOf (total s : ℕ) : ℕ :=
  if 8 * total < 100 * s then 0 else if 4 * total < 100 * s then 1 else 2

/-- The hard ceiling of each tier. -/
def tierCeiling : ℕ → ℕ
  | 0 => 120
  | 1 => 90
  | _ => 60

/-- The cap assigned to one observed size: min(120, int(s times 1.2))
for large, min(90, int(s times 1.3)) for medium, min(60, int(s times
1.5)) for small; int() truncation is natural-number division. -/
def calc_limit (total s : ℕ) : ℕ :=
  if 8 * total < 100 * s then min 120 (s * 12 / 10)
  else if 4 * total < 100 * s then min 90 (s * 13 / 10)
  else min 60 (s * 3 / 2)

/-- Embedding of MercadonaHybridCatalogSystem._calculate_category_limits:
each observed category (size above zero) is mapped to the cap derived
from its size share. -/
def calculate_category_limits (catalog : List Row) (c : String) : Option ℕ :=
  if 0 < catSize catalog c then some (calc_limit catalog.length (catSize catalog c)) else none

theorem calc_limit_mono (total s1 s2 : ℕ) (ht : tierOf total s1 = tierOf total s2)
    (hs : s1 ≤ s2) : calc_limit total s1 ≤ calc_limit total s2 := by
  simp only [tierOf] at ht
  simp only [calc_limit]
  split_ifs at ht ⊢ <;> omega

theorem calc_limit_le_ceiling (total s : ℕ) :
    calc_limit total s ≤ tierCeiling (tierOf total s) := by
  simp only [calc_limit, tierOf]
  split_ifs <;> simp [tierCeiling]

/-- C9: within one classification tier the computed caps are
non-decreasing in observed category size, and every computed cap is
bounded by its tier's hard ceiling (120, 90 or 60). -/
theorem c9_category_limits_monotone :
    (∀ (catalog : List Row) (c1 c2 : String) (v1 v2 : ℕ),
       calculate_category_limits catalog c1 = some v1 →
       calculate_category_limits catalog c2 = some v2 →
       tierOf catalog.length (catSize catalog c1) = tierOf catalog.length (catSize catalog c2) →
       catSize catalog c1 ≤ catSize catalog c2 → v1 ≤ v2) ∧
    (∀ (catalog : List Row) (c : String) (v : ℕ),
       calculate_category_limits catalog c = some v →
       v ≤ tierCeiling (tierOf catalog.length (catSize catalog c))) := by
  constructor
  · intro catalog c1 c2 v1 v2 h1 h2 ht hs
    simp only [calculate_category_limits] at h1 h2
    split_ifs at h1 h2
    injection h1 with h1
    injection h2 with h2
    exact h1 ▸ h2 ▸ calc_limit_mono catalog.length _ _ ht hs
  · intro catalog c v h
    simp only [calculate_category_limits] at h
    split_ifs at h
    injection h with h
    exact h ▸ calc_limit_le_ceiling catalog.length _

/-- A concrete catalog with two rows in category A and one in B. -/
def catalogW : List Row := [mkRow "1" (some "A"), mkRow "2" (some "A"), mkRow "3" (some "B")]

/-- C9 witness: in catalogW both categories sit in the large tier; the
smaller category's cap is bounded by the larger one's, and the larger
category's cap respects its tier ceiling. -/
theorem c9_witness :
    1 ≤ 2 ∧ 2 ≤ tierCeiling (tierOf catalogW.length (catSize catalogW "A")) :=
  ⟨c9_category_limits_monotone.1 catalogW "B" "A" 1 2 (by decide) (by decide) (by decide)
     (by decide),
   c9_category_limits_monotone.2 catalogW "A" 2 (by decide)⟩

/-- The mutable state of one full-build crawl: the output rows, the
per-category counters (a total function, like defaultdict(int)), the
visited set, the incomplete-category set (kept as a duplicate-free
list) and the current per-category limits.  Category keys are the
categoria_id of extracted rows, which can be null.  A category limit L
(a Python int or a float with one fractional digit, since the medium
multiplier is 1.5 and extensions are integers) is stored exactly as the
integer 10 times L, so every comparison of the source is an exact
integer comparison: count at least 0.9 times L is 100 times count at
least 9 times the stored value, and count at least L is 10 times count
at least the stored value. -/
structure CrawlState where
  allProducts : List Row
  productsByCategory : Option String → ℕ
  visited : List String
  incompleteCategories : List (Option String)
  currentCategoryLimits : Option String → Option ℤ

/-- The state at the start of build_full_catalog, after _reset_state. -/
def initCrawlState : CrawlState :=
  { allProducts := [], productsByCategory := fun _ => 0, visited := [],
    incompleteCategories := [], currentCategoryLimits := fun _ => none }

/-- The fixed allow-list of large category ids of
_get_dynamic_category_limit. -/
def LARGE_CATEGORIES : List String := ["1", "8", "13", "5", "6", "7", "11", "12", "21"]

/-- The fixed allow-list of medium category ids of
_get_dynamic_category_limit. -/
def MEDIUM_CATEGORIES : List String :=
  ["2", "3", "4", "9", "10", "14", "15", "16", "17", "18", "19", "20", "22", "23", "24", "25"]

/-- Embedding of MercadonaHybridCatalogSystem._get_dynamic_category_limit,
returning 10 times the Python limit: min(max_limit, base times 2) for the
large list, min(max_limit, base times 1.5) for the medium list, and the
base limit otherwise (a null category id is in neither list). -/
def get_dynamic_category_limit (c : Option String) (baseLimit maxLimit : ℕ) : ℤ :=
  match c with
  | some cid =>
    if cid ∈ LARGE_CATEGORIES then min (10 * (maxLimit : ℤ)) (20 * (baseLimit : ℤ))
    else if cid ∈ MEDIUM_CATEGORIES then min (10 * (maxLimit : ℤ)) (15 * (baseLimit : ℤ))
    else 10 * (baseLimit : ℤ)
  | none => 10 * (baseLimit : ℤ)

/-- Appending one extracted row: the row joins all_products and its
category counter is incremented. -/
def appendRow (st : CrawlState) (row : Row) : CrawlState :=
  { st with
    allProducts := st.allProducts ++ [row],
    productsByCategory := fun c =>
      if c = row.categoria_id then st.productsByCategory c + 1 else st.productsByCategory c }

/-- Embedding of the related-product enqueue loop: each related id is
appended to the queue unless it is already visited or already queued
(queue membership is checked against the queue as it grows).  A none
related-list response models a failed request, which enqueues
nothing. -/
def enqueueRelated (visited : List String) (q : List String) : Option (List String) → List String
  | none => q
  | some related =>
    related.foldl (fun acc rid => if rid ∈ visited ∨ rid ∈ acc then acc else acc ++ [rid]) q

/-- The tail of the limit-control block: the computed limits mapping is
stored, and when the category count has reached the final limit (10
times count at least the stored tenths value) the category joins the
incomplete set. -/
def recordLimit (st : CrawlState) (lims : Option String → Option ℤ) (cat : Option String)
    (cnt : ℕ) (limitT : ℤ) : CrawlState :=
  if limitT ≤ 10 * (cnt : ℤ) then
    { st with
      currentCategoryLimits := lims,
      incompleteCategories :=
        if cat ∈ st.incompleteCategories then st.incompleteCategories
        else st.incompleteCategories ++ [cat] }
  else { st with currentCategoryLimits := lims }

/-- The limits mapping after the fetch-or-initialize step opening the
limit-control block: when the category has no stored limit yet, its
dynamic limit is inserted; otherwise the stored mapping is kept. -/
def limitsInit (st : CrawlState) (cat : Option String) (baseLimit maxCat : ℕ) :
    Option String → Option ℤ :=
  match st.currentCategoryLimits cat with
  | none => fun c =>
      if c = cat then some (get_dynamic_category_limit cat baseLimit maxCat)
      else st.currentCategoryLimits c
  | some _ => st.currentCategoryLimits

/-- Embedding of the limit-control block at the end of one dequeue step
of build_full_catalog (run only when a row was extracted): the current
limit is fetched or initialized from _get_dynamic_category_limit; when
the count has reached 90 percent of it and the queue is non-empty, the
limit is extended by min(20, max_category_size - count) if that is
positive; finally the category is marked incomplete when the count has
reached the final (possibly extended) limit. -/
def applyLimitControl (baseLimit maxCat : ℕ) (st : CrawlState) (q : List String)
    (row : Row) : CrawlState :=
  if 9 * ((limitsInit st row.categoria_id baseLimit maxCat row.categoria_id).getD 0) ≤
       100 * (st.productsByCategory row.categoria_id : ℤ) ∧ q ≠ [] then
    if 0 < min 20 ((maxCat : ℤ) - (st.productsByCategory row.categoria_id : ℤ)) then
      recordLimit st
        (fun c =>
          if c = row.categoria_id then
            some ((limitsInit st row.categoria_id baseLimit maxCat row.categoria_id).getD 0 +
              10 * min 20 ((maxCat : ℤ) - (st.productsByCategory row.categoria_id : ℤ)))
          else limitsInit st row.categoria_id baseLimit maxCat c)
        row.categoria_id (st.productsByCategory row.categoria_id)
        ((limitsInit st row.categoria_id baseLimit maxCat row.categoria_id).getD 0 +
          10 * min 20 ((maxCat : ℤ) - (st.productsByCategory row.categoria_id : ℤ)))
    else
      recordLimit st (limitsInit st row.categoria_id baseLimit maxCat) row.categoria_id
        (st.productsByCategory row.categoria_id)
        ((limitsInit st row.categoria_id baseLimit maxCat row.categoria_id).getD 0)
  else
    recordLimit st (limitsInit st row.categoria_id baseLimit maxCat) row.categoria_id
      (st.productsByCategory row.categoria_id)
      ((limitsInit st row.categoria_id baseLimit maxCat row.categoria_id).getD 0)

/-- Adding the dequeued id to the visited set. -/
def markVisited (st : CrawlState) (current : String) : CrawlState :=
  { st with visited := current :: st.visited }

/-- One iteration of the inner while loop of build_full_catalog for a
dequeued id: an already-visited id is skipped; otherwise the id is
marked visited and fetched; a failed fetch just continues; extraction
runs (an extraction exception aborts the build, as in the source, where
it is not caught); on success the row is appended and counted; the
related-product list is fetched and enqueued; and the limit-control
block runs when a row was extracted. -/
def processOne (apiProduct : String → Option ProductRec)
    (apiRelated : String → Option (List String)) (baseLimit maxCat : ℕ)
    (st : CrawlState) (current : String) (rest : List String) :
    Except Unit (CrawlState × List String) :=
  if current ∈ st.visited then .ok (st, rest)
  else
    match apiProduct current with
    | none => .ok (markVisited st current, rest)
    | some product =>
      match extract_product_data (some product) with
      | .error e => .error e
      | .ok none =>
        .ok (markVisited st current,
             enqueueRelated (current :: st.visited) rest (apiRelated current))
      | .ok (some row) =>
        .ok (applyLimitControl baseLimit maxCat (appendRow (markVisited st current) row)
               (enqueueRelated (current :: st.visited) rest (apiRelated current)) row,
             enqueueRelated (current :: st.visited) rest (apiRelated current))

/-- The inner while loop of build_full_catalog: it runs while the queue
is non-empty and the global product budget is not exhausted.  The fuel
argument bounds the number of iterations so the recursion is
structural; every theorem below holds for every fuel value. -/
def runQueue (apiProduct : String → Option ProductRec)
    (apiRelated : String → Option (List String)) (maxProducts baseLimit maxCat : ℕ) :
    ℕ → CrawlState → List String → Except Unit (CrawlState × List String)
  | 0, st, q => .ok (st, q)
  | Nat.succ fuel, st, q =>
    match q with
    | [] => .ok (st, [])
    | current :: rest =>
      if st.allProducts.length < maxProducts then
        match processOne apiProduct apiRelated baseLimit maxCat st current rest with
        | .error e => .error e
        | .ok (st', q') =>
          runQueue apiProduct apiRelated maxProducts baseLimit maxCat fuel st' q'
      else .ok (st, current :: rest)

/-- The outer seed loop of build_full_catalog: each strategic seed gets
a fresh queue holding only that seed, drained by the inner loop; any
queue left over when the budget is exhausted is abandoned. -/
def runSeeds (apiProduct : String → Option ProductRec)
    (apiRelated : String → Option (List String)) (maxProducts baseLimit maxCat fuel : ℕ) :
    List String → CrawlState → Except Unit CrawlState
  | [], st => .ok st
  | s :: rest, st =>
    match runQueue apiProduct apiRelated maxProducts baseLimit maxCat fuel st [s] with
    | .error e => .error e
    | .ok (st', _) =>
      runSeeds apiProduct apiRelated maxProducts baseLimit maxCat fuel rest st'

/-- The predefined strategic seeds of build_full_catalog. -/
def strategic_seeds : List String :=
  ["3497", "86385", "21329", "60091", "84785", "52710", "62048", "40229",
   "86397", "30167", "3819", "23017", "23013", "35420", "18086", "86905",
   "86786", "9264", "13204", "66462", "9280", "19897", "5044", "22910",
   "28035", "4241"]

/-- Embedding of MercadonaHybridCatalogSystem.build_full_catalog (the
crawl itself; the final dataframe, file and report writes are external
effects carrying the same all_products list). -/
def build_full_catalog (apiProduct : String → Option ProductRec)
    (apiRelated : String → Option (List String)) (fuel maxProducts baseLimit maxCat : ℕ) :
    Except Unit CrawlState :=
  runSeeds apiProduct apiRelated maxProducts baseLimit maxCat fuel strategic_seeds
    initCrawlState

theorem recordLimit_allProducts (st : CrawlState) (lims : Option String → Option ℤ)
    (cat : Option String) (cnt : ℕ) (limitT : ℤ) :
    (recordLimit st lims cat cnt limitT).allProducts = st.allProducts := by
  unfold recordLimit
  split_ifs <;> rfl

theorem recordLimit_products (st : CrawlState) (lims : Option String → Option ℤ)
    (cat : Option String) (cnt : ℕ) (limitT : ℤ) :
    (recordLimit st lims cat cnt limitT).productsByCategory = st.productsByCategory := by
  unfold recordLimit
  split_ifs <;> rfl

theorem recordLimit_lims (st : CrawlState) (lims : Option String → Option ℤ)
    (cat : Option String) (cnt : ℕ) (limitT : ℤ) :
    (recordLimit st lims cat cnt limitT).currentCategoryLimits = lims := by
  unfold recordLimit
  split_ifs <;> rfl

theorem recordLimit_mem (st : CrawlState) (lims : Option String → Option ℤ)
    (cat : Option String) (cnt : ℕ) (limitT : ℤ) (c : Option String) :
    c ∈ (recordLimit st lims cat cnt limitT).incompleteCategories ↔
      c ∈ st.incompleteCategories ∨ (c = cat ∧ limitT ≤ 10 * (cnt : ℤ)) := by
  unfold recordLimit
  split_ifs with h hm
  · constructor
    · intro hc
      exact Or.inl hc
    · rintro (hc | ⟨rfl, _⟩)
      · exact hc
      · exact hm
  · simp only [List.mem_append, List.mem_singleton]
    constructor
    · rintro (hc | rfl)
      · exact Or.inl hc
      · exact Or.inr ⟨rfl, h⟩
    · rintro (hc | ⟨rfl, _⟩)
      · exact Or.inl hc
      · exact Or.inr rfl
  · simp only [iff_self_or]
    rintro ⟨rfl, hc⟩
    exact absurd hc (by assumption)

theorem limitsInit_at_cat (st : CrawlState) (cat : Option String) (b m : ℕ) :
    limitsInit st cat b m cat = some ((limitsInit st cat b m cat).getD 0) := by
  cases h : st.currentCategoryLimits cat
  · simp [limitsInit, h]
  · simp [limitsInit, h]

theorem applyLimitControl_spec (b m : ℕ) (st : CrawlState) (q : List String) (row : Row) :
    ∃ (lims : Option String → Option ℤ) (limitT : ℤ),
      applyLimitControl b m st q row =
        recordLimit st lims row.categoria_id (st.productsByCategory row.categoria_id) limitT ∧
      lims row.categoria_id = some limitT := by
  unfold applyLimitControl
  split_ifs with h1 h2
  · exact ⟨_, _, rfl, by simp⟩
  · exact ⟨_, _, rfl, limitsInit_at_cat st row.categoria_id b m⟩
  · exact ⟨_, _, rfl, limitsInit_at_cat st row.categoria_id b m⟩

theorem applyLimitControl_allProducts (b m : ℕ) (st : CrawlState) (q : List String)
    (row : Row) : (applyLimitControl b m st q row).allProducts = st.allProducts := by
  obtain ⟨lims, limitT, he, -⟩ := applyLimitControl_spec b m st q row
  rw [he, recordLimit_allProducts]

theorem applyLimitControl_products (b m : ℕ) (st : CrawlState) (q : List String)
    (row : Row) : (applyLimitControl b m st q row).productsByCategory = st.productsByCategory := by
  obtain ⟨lims, limitT, he, -⟩ := applyLimitControl_spec b m st q row
  rw [he, recordLimit_products]

theorem applyLimitControl_mem (b m : ℕ) (st : CrawlState) (q : List String) (row : Row)
    (c : Option String) :
    c ∈ (applyLimitControl b m st q row).incompleteCategories ↔
      c ∈ st.incompleteCategories ∨
        (c = row.categoria_id ∧
         ((applyLimitControl b m st q row).currentCategoryLimits c).getD 0 ≤
           10 * (st.productsByCategory row.categoria_id : ℤ)) := by
  obtain ⟨lims, limitT, he, hl⟩ := applyLimitControl_spec b m st q row
  rw [he, recordLimit_mem, recordLimit_lims]
  refine or_congr Iff.rfl ?_
  constructor
  · rintro ⟨rfl, ht⟩
    exact ⟨rfl, by rw [hl]; exact ht⟩
  · rintro ⟨rfl, ht⟩
    rw [hl] at ht
    exact ⟨rfl, ht⟩

theorem processOne_ok (apiProduct : String → Option ProductRec)
    (apiRelated : String → Option (List String)) (b m : ℕ) (st : CrawlState)
    (current : String) (rest : List String) (st' : CrawlState) (q' : List String)
    (h : processOne apiProduct apiRelated b m st current rest = .ok (st', q')) :
    (st'.allProducts = st.allProducts ∧
     st'.incompleteCategories = st.incompleteCategories ∧
     st'.productsByCategory = st.productsByCategory) ∨
    (∃ row : Row,
      st'.allProducts = st.allProducts ++ [row] ∧
      st'.productsByCategory row.categoria_id = st.productsByCategory row.categoria_id + 1 ∧
      (∀ c, c ∈ st'.incompleteCategories ↔
        c ∈ st.incompleteCategories ∨
          (c = row.categoria_id ∧
           (st'.currentCategoryLimits c).getD 0 ≤
             10 * (st'.productsByCategory row.categoria_id : ℤ)))) := by
  unfold processOne at h
  split_ifs at h with hv
  · simp only [Except.ok.injEq, Prod.mk.injEq] at h
    obtain ⟨rfl, rfl⟩ := h
    exact Or.inl ⟨rfl, rfl, rfl⟩
  · cases hp : apiProduct current with
    | none =>
      simp only [hp, Except.ok.injEq, Prod.mk.injEq] at h
      obtain ⟨rfl, rfl⟩ := h
      exact Or.inl ⟨rfl, rfl, rfl⟩
    | some product =>
      simp only [hp] at h
      cases he : extract_product_data (some product) with
      | error e =>
        simp only [he] at h
        exact absurd h (by simp)
      | ok sOpt =>
        simp only [he] at h
        cases sOpt with
        | none =>
          simp only [Except.ok.injEq, Prod.mk.injEq] at h
          obtain ⟨rfl, rfl⟩ := h
          exact Or.inl ⟨rfl, rfl, rfl⟩
        | some row =>
          simp only [Except.ok.injEq, Prod.mk.injEq] at h
          obtain ⟨rfl, rfl⟩ := h
          refine Or.inr ⟨row, ?_, ?_, ?_⟩
          · rw [applyLimitControl_allProducts]
            rfl
          · rw [applyLimitControl_products]
            simp [appendRow, markVisited]
          · intro c
            rw [applyLimitControl_mem, applyLimitControl_products]
            exact Iff.rfl

theorem processOne_length (apiProduct : String → Option ProductRec)
    (apiRelated : String → Option (List String)) (b m : ℕ) (st : CrawlState)
    (current : String) (rest : List String) (st' : CrawlState) (q' : List String)
    (h : processOne apiProduct apiRelated b m st current rest = .ok (st', q')) :
    st'.allProducts.length ≤ st.allProducts.length + 1 := by
  rcases processOne_ok apiProduct apiRelated b m st current rest st' q' h with
    ⟨h1, -, -⟩ | ⟨row, h1, -, -⟩
  · rw [h1]
    omega
  · rw [h1]
    simp

theorem runQueue_length (apiProduct : String → Option ProductRec)
    (apiRelated : String → Option (List String)) (maxProducts baseLimit maxCat : ℕ) :
    ∀ (fuel : ℕ) (st : CrawlState) (q : List String) (st' : CrawlState) (q' : List String),
      st.allProducts.length ≤ maxProducts →
      runQueue apiProduct apiRelated maxProducts baseLimit maxCat fuel st q = .ok (st', q') →
      st'.allProducts.length ≤ maxProducts := by
  intro fuel
  induction fuel with
  | zero =>
    intro st q st' q' hle h
    simp only [runQueue, Except.ok.injEq, Prod.mk.injEq] at h
    obtain ⟨rfl, rfl⟩ := h
    exact hle
  | succ fuel ih =>
    intro st q st' q' hle h
    cases q with
    | nil =>
      simp only [runQueue, Except.ok.injEq, Prod.mk.injEq] at h
      obtain ⟨rfl, rfl⟩ := h
      exact hle
    | cons current rest =>
      simp only [runQueue] at h
      split_ifs at h with hlt
      · cases hp : processOne apiProduct apiRelated baseLimit maxCat st current rest with
        | error e =>
          simp only [hp] at h
          exact absurd h (by simp)
        | ok p =>
          obtain ⟨stm, qm⟩ := p
          simp only [hp] at h
          have hb : stm.allProducts.length ≤ maxProducts := by
            have := processOne_length apiProduct apiRelated baseLimit maxCat st current rest
              stm qm hp
            omega
          exact ih stm qm st' q' hb h
      · simp only [Except.ok.injEq, Prod.mk.injEq] at h
        obtain ⟨rfl, rfl⟩ := h
        exact hle

theorem runSeeds_length (apiProduct : String → Option ProductRec)
    (apiRelated : String → Option (List String)) (maxProducts baseLimit maxCat fuel : ℕ) :
    ∀ (seeds : List String) (st st' : CrawlState),
      st.allProducts.length ≤ maxProducts →
      runSeeds apiProduct apiRelated maxProducts baseLimit maxCat fuel seeds st = .ok st' →
      st'.allProducts.length ≤ maxProducts := by
  intro seeds
  induction seeds with
  | nil =>
    intro st st' hle h
    simp only [runSeeds, Except.ok.injEq] at h
    exact h ▸ hle
  | cons s rest ih =>
    intro st st' hle h
    simp only [runSeeds] at h
    cases hq : runQueue apiProduct apiRelated maxProducts baseLimit maxCat fuel st [s] with
    | error e =>
      simp only [hq] at h
      exact absurd h (by simp)
    | ok p =>
      obtain ⟨stm, qm⟩ := p
      simp only [hq] at h
      exact ih stm st'
        (runQueue_length apiProduct apiRelated maxProducts baseLimit maxCat fuel st [s]
          stm qm hle hq) h

/-- C8: for every product-fetch function, every related-products
response function, every fuel bound and every budget, the full-build
crawler's output never exceeds max_products rows, regardless of the
branching factor of the related-products graph. -/
theorem c8_crawler_budget :
    ∀ (apiProduct : String → Option ProductRec)
      (apiRelated : String → Option (List String)) (fuel maxProducts baseLimit maxCat : ℕ)
      (st : CrawlState),
      build_full_catalog apiProduct apiRelated fuel maxProducts baseLimit maxCat = .ok st →
      st.allProducts.length ≤ maxProducts := by
  intro apiP apiR fuel maxP b m st h
  exact runSeeds_length apiP apiR maxP b m fuel strategic_seeds initCrawlState st
    (by simp [initCrawlState]) h

/-- A product API on which every fetch fails. -/
def apiProductNone : String → Option ProductRec := fun _ => none

/-- A related-products API that always answers with an empty list. -/
def apiRelatedEmpty : String → Option (List String) := fun _ => some []

/-- The state produced by a concrete full build against the
always-failing product API. -/
def c8RunState : CrawlState :=
  match build_full_catalog apiProductNone apiRelatedEmpty 5 3 1 1 with
  | .ok st => st
  | .error _ => initCrawlState

/-- C8 witness: the budget bound applied to a concrete run. -/
theorem c8_witness : c8RunState.allProducts.length ≤ 3 :=
  c8_crawler_budget apiProductNone apiRelatedEmpty 5 3 1 1 c8RunState rfl

/-- C5 amended: in every dequeue step of the full build, the incomplete
set grows monotonically; a category is newly marked exactly when the
step appended a product of that category and the post-step count has
reached the (possibly extended) final cap (limits stored as 10 times
their value) — the state of the exploration queue plays no role, so a
category reaching its cap with an empty queue is marked as well. -/
theorem c5_incomplete_marking_amended :
    ∀ (apiProduct : String → Option ProductRec)
      (apiRelated : String → Option (List String)) (b m : ℕ) (st : CrawlState)
      (current : String) (rest : List String) (st' : CrawlState) (q' : List String),
      processOne apiProduct apiRelated b m st current rest = .ok (st', q') →
      (∀ c, c ∈ st.incompleteCategories → c ∈ st'.incompleteCategories) ∧
      (∀ c, c ∈ st'.incompleteCategories →
          c ∈ st.incompleteCategories ∨
            (∃ row : Row, st'.allProducts = st.allProducts ++ [row] ∧ c = row.categoria_id ∧
              (st'.currentCategoryLimits c).getD 0 ≤
                10 * (st'.productsByCategory c : ℤ))) ∧
      (∀ row : Row, st'.allProducts = st.allProducts ++ [row] →
          (st'.currentCategoryLimits row.categoria_id).getD 0 ≤
            10 * (st'.productsByCategory row.categoria_id : ℤ) →
          row.categoria_id ∈ st'.incompleteCategories) := by
  intro apiProduct apiRelated b m st current rest st' q' h
  rcases processOne_ok apiProduct apiRelated b m st current rest st' q' h with
    ⟨ha, hi, -⟩ | ⟨row, ha, -, hiff⟩
  · refine ⟨?_, ?_, ?_⟩
    · intro c hc
      rw [hi]
      exact hc
    · intro c hc
      rw [hi] at hc
      exact Or.inl hc
    · intro row hrow
      rw [ha] at hrow
      simp at hrow
  · refine ⟨?_, ?_, ?_⟩
    · intro c hc
      exact (hiff c).2 (Or.inl hc)
    · intro c hc
      rcases (hiff c).1 hc with hc' | ⟨hceq, hle⟩
      · exact Or.inl hc'
      · subst hceq
        exact Or.inr ⟨row, ha, rfl, hle⟩
    · intro row2 hrow2 hle2
      have hrow : row = row2 := by
        rw [ha] at hrow2
        have := List.append_cancel_left hrow2.symm
        simpa using this.symm
      subst hrow
      exact (hiff row.categoria_id).2 (Or.inr ⟨rfl, hle2⟩)

/-- The raw record of one product of category X used in the concrete
crawler runs. -/
def recCatX (i : String) : ProductRec :=
  { recId := some (.pstr i), display_name := some i, slug := some i,
    categories := some [⟨.pstr "X", "Cat X"⟩], price_instructions := none,
    packaging := some "u", published := some true, share_url := none }

/-- The extracted row of recCatX. -/
def rowCatX (i : String) : Row :=
  { id := i, nombre := i, slug := i, categoria_id := some "X", categoria := "Cat X",
    precio_total := 0, precio_por_unidad := 0, unidad_medida := "", iva := "",
    empaque := "u", disponible := true, url := "" }

/-- A product API that knows only the first strategic seed. -/
def apiProductC5 : String → Option ProductRec := fun i =>
  if i = "3497" then some (recCatX "3497") else none

/-- C5 counterexample: processing the seed of a one-product category
with base and maximum category size 1 and an empty related list leaves
an empty queue (no unexplored related ids remain), yet the category is
added to the incomplete set the moment its count reaches the cap —
refuting the claim that a category reaching its cap with an empty queue
is not marked incomplete. -/
theorem c5_counterexample :
    (processOne apiProductC5 apiRelatedEmpty 1 1 initCrawlState "3497" []).toOption.map
      (fun r => (r.2, r.1.incompleteCategories,
        r.1.productsByCategory (some "X"), r.1.currentCategoryLimits (some "X"))) =
    some ([], [some "X"], 1, some 10) := by
  decide

/-- The state and queue after the concrete C5 step. -/
def c5Pair : CrawlState × List String :=
  match processOne apiProductC5 apiRelatedEmpty 1 1 initCrawlState "3497" [] with
  | .ok p => p
  | .error _ => (initCrawlState, [])

/-- C5 witness: the amended marking rule applied to the concrete step. -/
theorem c5_witness : (rowCatX "3497").categoria_id ∈ c5Pair.1.incompleteCategories :=
  (c5_incomplete_marking_amended apiProductC5 apiRelatedEmpty 1 1 initCrawlState "3497" []
    c5Pair.1 c5Pair.2 rfl).2.2 (rowCatX "3497") (by decide) (by decide)

/-- A stub product API with three products of category X: the first
strategic seed and its two related products. -/
def apiProductC2 : String → Option ProductRec := fun i =>
  if i = "3497" then some (recCatX "3497")
  else if i = "a" then some (recCatX "a")
  else if i = "b" then some (recCatX "b")
  else none

/-- The related-products API for the C2 run: the seed relates to a and
b, everything else to nothing. -/
def apiRelatedC2 : String → Option (List String) := fun i =>
  if i = "3497" then some ["a", "b"] else some []

/-- C2: evaluation of the full build at the failing input.  With base
limit 1 and maximum category size 1, category X's final cap is 1
(stored as 10) and the category is marked incomplete at its first
product, yet the crawler goes on to append its two further products:
the final count 3 exceeds the cap 1, because the source computes,
extends and logs per-category limits but never suppresses an append
once the cap is reached. -/
theorem c2_category_cap_not_enforced :
    (build_full_catalog apiProductC2 apiRelatedC2 10 20 1 1).toOption.map
      (fun st => (st.productsByCategory (some "X"), st.currentCategoryLimits (some "X"),
        st.incompleteCategories)) =
    some (3, some 10, [some "X"]) := by
  decide

/-- The state of the new-product search of _find_new_products: the
per-crawl visited set (initialized to the whole known-product set), the
known-product set itself, and the accumulated new products. -/
structure ExploreState where
  visited : List String
  known : List String
  newProducts : List Row
deriving Repr

/-- The append step of the new-product search: an extracted row whose id
is not yet known is appended to the new products and its id joins the
known set. -/
def exploreUpdate (st : ExploreState) (current : String) : Option Row → ExploreState
  | some row =>
      if current ∈ st.known then st
      else { st with newProducts := st.newProducts ++ [row], known := current :: st.known }
  | none => st

/-- One seed's inner while loop of _find_new_products (identical in the
incomplete-category phase and the general phase): it runs while the
queue is non-empty and fewer than max_new products were found; an
already-visited id is skipped; otherwise the id is marked visited and
fetched; on a successful fetch the record is extracted (an extraction
exception aborts, as in the source) and the related ids are enqueued
with the same visited- and queue-membership checks as the full build. -/
def exploreLoop (apiProduct : String → Option ProductRec)
    (apiRelated : String → Option (List String)) (maxNew : ℕ) :
    ℕ → ExploreState → List String → Except Unit (ExploreState × List String)
  | 0, st, q => .ok (st, q)
  | Nat.succ fuel, st, q =>
    match q with
    | [] => .ok (st, [])
    | current :: rest =>
      if st.newProducts.length < maxNew then
        if current ∈ st.visited then exploreLoop apiProduct apiRelated maxNew fuel st rest
        else
          match apiProduct current with
          | none =>
            exploreLoop apiProduct apiRelated maxNew fuel
              { st with visited := current :: st.visited } rest
          | some product =>
            match extract_product_data (some product) with
            | .error e => .error e
            | .ok sOpt =>
              exploreLoop apiProduct apiRelated maxNew fuel
                (exploreUpdate { st with visited := current :: st.visited } current sOpt)
                (enqueueRelated (current :: st.visited) rest (apiRelated current))
      else .ok (st, q)

/-- The loop over one category's seed list: it breaks once max_new
products were found, and otherwise runs one exploration from each
seed. -/
def runSeedsExplore (apiProduct : String → Option ProductRec)
    (apiRelated : String → Option (List String)) (maxNew fuel : ℕ) :
    List String → ExploreState → Except Unit ExploreState
  | [], st => .ok st
  | s :: rest, st =>
    if maxNew ≤ st.newProducts.length then .ok st
    else
      match exploreLoop apiProduct apiRelated maxNew fuel st [s] with
      | .error e => .error e
      | .ok (st', _) => runSeedsExplore apiProduct apiRelated maxNew fuel rest st'

/-- The first phase of _find_new_products: the incomplete categories are
explored first, each from its assigned seeds. -/
def runIncompletePhase (apiProduct : String → Option ProductRec)
    (apiRelated : String → Option (List String)) (maxNew fuel : ℕ)
    (categorySeeds : List (String × List String)) :
    List String → ExploreState → Except Unit ExploreState
  | [], st => .ok st
  | cat :: rest, st =>
    if maxNew ≤ st.newProducts.length then .ok st
    else
      match runSeedsExplore apiProduct apiRelated maxNew fuel
          ((categorySeeds.lookup cat).getD []) st with
      | .error e => .error e
      | .ok st' => runIncompletePhase apiProduct apiRelated maxNew fuel categorySeeds rest st'

/-- The second phase of _find_new_products: the remaining categories are
explored, skipping incomplete ones (already handled) and stopping once
max_new products were found. -/
def runOtherPhase (apiProduct : String → Option ProductRec)
    (apiRelated : String → Option (List String)) (maxNew fuel : ℕ)
    (incompleteCats : List String) :
    List (String × List String) → ExploreState → Except Unit ExploreState
  | [], st => .ok st
  | (cat, seeds) :: rest, st =>
    if cat ∈ incompleteCats ∨ maxNew ≤ st.newProducts.length then
      runOtherPhase apiProduct apiRelated maxNew fuel incompleteCats rest st
    else
      match runSeedsExplore apiProduct apiRelated maxNew fuel seeds st with
      | .error e => .error e
      | .ok st' => runOtherPhase apiProduct apiRelated maxNew fuel incompleteCats rest st'

/-- Embedding of MercadonaHybridCatalogSystem._find_new_products.  The
randomized seed selection of the source (random.sample over catalog
rows) is abstracted as an arbitrary assignment of seed ids to category
ids; in the source every selected seed is the id of a catalog row, so
the discovery theorem quantifies over assignments whose seeds all lie
in the known-product set.  The search starts with visited initialized
to the known-product set, explores incomplete categories first and the
rest afterwards, and returns the accumulated new products (the final
write-back of completed categories does not change the returned
products and is omitted). -/
def find_new_products (apiProduct : String → Option ProductRec)
    (apiRelated : String → Option (List String)) (fuel maxNew : ℕ)
    (known incompleteCats : List String)
    (categorySeeds : List (String × List String)) : Except Unit ExploreState :=
  match runIncompletePhase apiProduct apiRelated maxNew fuel categorySeeds incompleteCats
      ⟨known, known, []⟩ with
  | .error e => .error e
  | .ok st => runOtherPhase apiProduct apiRelated maxNew fuel incompleteCats categorySeeds st

theorem exploreLoop_all_visited (apiProduct : String → Option ProductRec)
    (apiRelated : String → Option (List String)) (maxNew : ℕ) :
    ∀ (fuel : ℕ) (st : ExploreState) (q : List String),
      (∀ x ∈ q, x ∈ st.visited) →
      ∃ q', exploreLoop apiProduct apiRelated maxNew fuel st q = .ok (st, q') := by
  intro fuel
  induction fuel with
  | zero => intro st q _; exact ⟨q, rfl⟩
  | succ fuel ih =>
    intro st q hq
    cases q with
    | nil => exact ⟨[], rfl⟩
    | cons current rest =>
      simp only [exploreLoop]
      by_cases hlt : st.newProducts.length < maxNew
      · rw [if_pos hlt, if_pos (hq current (List.mem_cons_self current rest))]
        exact ih st rest fun x hx => hq x (List.mem_cons_of_mem current hx)
      · rw [if_neg hlt]
        exact ⟨current :: rest, rfl⟩

theorem runSeedsExplore_all_visited (apiProduct : String → Option ProductRec)
    (apiRelated : String → Option (List String)) (maxNew fuel : ℕ) :
    ∀ (seeds : List String) (st : ExploreState),
      (∀ s ∈ seeds, s ∈ st.visited) →
      runSeedsExplore apiProduct apiRelated maxNew fuel seeds st = .ok st := by
  intro seeds
  induction seeds with
  | nil => intro st _; rfl
  | cons s rest ih =>
    intro st hs
    simp only [runSeedsExplore]
    split_ifs with hstop
    · rfl
    · obtain ⟨q', hq⟩ := exploreLoop_all_visited apiProduct apiRelated maxNew fuel st [s]
        (by
          intro x hx
          rw [List.mem_singleton] at hx
          exact hx ▸ hs s (List.mem_cons_self s rest))
      rw [hq]
      exact ih st fun x hx => hs x (List.mem_cons_of_mem s hx)

theorem lookup_pair_mem :
    ∀ (l : List (String × List String)) (k : String) (v : List String),
      l.lookup k = some v → (k, v) ∈ l := by
  intro l
  induction l with
  | nil => intro k v h; simp [List.lookup] at h
  | cons p t ih =>
    intro k v h
    obtain ⟨a, b⟩ := p
    simp only [List.lookup] at h
    cases hab : (k == a) with
    | true =>
      rw [hab] at h
      injection h with h
      have hk : k = a := by simpa using hab
      exact hk ▸ h ▸ List.mem_cons_self (k, v) t
    | false =>
      rw [hab] at h
      exact List.mem_cons_of_mem _ (ih k v h)

theorem runIncompletePhase_all_visited (apiProduct : String → Option ProductRec)
    (apiRelated : String → Option (List String)) (maxNew fuel : ℕ)
    (categorySeeds : List (String × List String)) :
    ∀ (cats : List String) (st : ExploreState),
      (∀ cs ∈ categorySeeds, ∀ s ∈ cs.2, s ∈ st.visited) →
      runIncompletePhase apiProduct apiRelated maxNew fuel categorySeeds cats st = .ok st := by
  intro cats
  induction cats with
  | nil => intro st _; rfl
  | cons cat rest ih =>
    intro st hs
    simp only [runIncompletePhase]
    split_ifs with hstop
    · rfl
    · have hseed : ∀ s ∈ (categorySeeds.lookup cat).getD [], s ∈ st.visited := by
        intro s hssome
        cases hl : categorySeeds.lookup cat with
        | none => rw [hl] at hssome; simp at hssome
        | some v =>
          rw [hl] at hssome
          exact hs (cat, v) (lookup_pair_mem categorySeeds cat v hl) s hssome
      rw [runSeedsExplore_all_visited apiProduct apiRelated maxNew fuel _ st hseed]
      exact ih st hs

theorem runOtherPhase_all_visited (apiProduct : String → Option ProductRec)
    (apiRelated : String → Option (List String)) (maxNew fuel : ℕ)
    (incompleteCats : List String) :
    ∀ (pairs : List (String × List String)) (st : ExploreState),
      (∀ cs ∈ pairs, ∀ s ∈ cs.2, s ∈ st.visited) →
      runOtherPhase apiProduct apiRelated maxNew fuel incompleteCats pairs st = .ok st := by
  intro pairs
  induction pairs with
  | nil => intro st _; rfl
  | cons p rest ih =>
    intro st hs
    obtain ⟨cat, seeds⟩ := p
    simp only [runOtherPhase]
    split_ifs with hskip
    · exact ih st fun cs hcs => hs cs (List.mem_cons_of_mem _ hcs)
    · rw [runSeedsExplore_all_visited apiProduct apiRelated maxNew fuel seeds st
        (hs (cat, seeds) (List.mem_cons_self _ rest))]
      exact ih st fun cs hcs => hs cs (List.mem_cons_of_mem _ hcs)

/-- C1: the incremental new-product search discovers nothing.  Because
the per-crawl visited set is initialized to the entire known-product
set and every seed is the id of an existing catalog row, every seed is
skipped by the visited check before its related-product list is ever
fetched, so for every product API, every related-products response
function and every seed assignment drawn from the catalog, the search
returns the start state unchanged with an empty new-product list — the
claimed discovery of a related id outside the known set can never
happen. -/
theorem c1_find_new_products_never_discovers :
    ∀ (apiProduct : String → Option ProductRec)
      (apiRelated : String → Option (List String)) (fuel maxNew : ℕ)
      (known incompleteCats : List String)
      (categorySeeds : List (String × List String)),
      (∀ cs ∈ categorySeeds, ∀ s ∈ cs.2, s ∈ known) →
      find_new_products apiProduct apiRelated fuel maxNew known incompleteCats
        categorySeeds = .ok ⟨known, known, []⟩ := by
  intro apiProduct apiRelated fuel maxNew known incompleteCats categorySeeds hs
  unfold find_new_products
  rw [runIncompletePhase_all_visited apiProduct apiRelated maxNew fuel categorySeeds
    incompleteCats ⟨known, known, []⟩ hs]
  exact runOtherPhase_all_visited apiProduct apiRelated maxNew fuel incompleteCats
    categorySeeds ⟨known, known, []⟩ hs

/-- A product API where the known product 100 relates to the unknown,
fetchable and extractable product 300. -/
def apiProductC1 : String → Option ProductRec := fun i =>
  if i = "100" then some (recCatX "100")
  else if i = "300" then some (recCatX "300")
  else none

/-- The related-products responses for the C1 run: 100 relates to 300. -/
def apiRelatedC1 : String → Option (List String) := fun i =>
  if i = "100" then some ["300"] else some []

/-- C1 witness: on a catalog knowing only product 100, whose related
list contains the new product 300, the search still returns no new
products — the discovery machinery is dead code. -/
theorem c1_witness :
    find_new_products apiProductC1 apiRelatedC1 10 150 ["100"] [] [("X", ["100"])] =
      .ok ⟨["100"], ["100"], []⟩ :=
  c1_find_new_products_never_discovers apiProductC1 apiRelatedC1 10 150 ["100"] []
    [("X", ["100"])] (by decide)
